import Mathlib

/-!
Shallow embedding of the eo-python client (eo.py, eo_net.py, eo_api.py,
scheduler.py) and proofs about its network-resilience layer and scheduler.

Time instants and durations are modelled as rationals; the random draws of
random.random() are passed in explicitly as values in the interval from 0 to 1.
-/

/-- Module constant of eo_net.py: minimum time between requests, 0.75 seconds. -/
def MIN_REQUEST_INTERVAL : ℚ := 3/4

/-- Module constant of eo_net.py: first retry delay, 4.0 seconds. -/
def INITIAL_RETRY_DELAY : ℚ := 4

/-- Module constant of eo_net.py: the number of retry attempts. -/
def NUM_RETRIES : ℕ := 4

/-- Module constant of eo_net.py: the jitter variation, 0.20. -/
def JITTER_FACTOR : ℚ := 1/5

/-- Module constant of eo_api.py: how often we should sign in, in hours. -/
def SIGNIN_INTERVAL_IN_HOURS : ℚ := 4

/-- Module constant of eo.py: maximum favorites considered for display. -/
def MAX_FAVORITES_FOR_DISPLAY : ℕ := 200

/-- Module constant of eo.py: favorites pulled per request. -/
def NUM_FAVORITES_PER_REQUEST : ℕ := 30

/-- Embedding of jitter(interval, factor) from eo.py and EO_Net.jitter: returns
interval + interval * factor * (2.0 * random.random() - 1.0). The draw of
random.random() is the explicit argument u, a rational in the interval [0, 1]. -/
def jitter (interval factor u : ℚ) : ℚ :=
  interval + interval * factor * (2 * u - 1)

namespace EO_Net

/-- Mutable state of EO_Net relevant to the rate limiter. Initialization sets
last_request_time to 0; no other statement in the class assigns the field. -/
structure NetState where
  last_request_time : ℚ
deriving DecidableEq

/-- Embedding of EO_Net.check_request_rate. The argument now is the process
clock value when the gate is entered. The first component of the result is the
instant at which the gate releases the caller: entry time plus the sleep, when
interval = now - last_request_time is below MIN_REQUEST_INTERVAL, or the entry
time itself otherwise. The second component is the state afterwards: the method
only reads self.last_request_time and never assigns it, so it is unchanged. -/
def check_request_rate (st : NetState) (now : ℚ) : ℚ × NetState :=
  let interval := now - st.last_request_time
  if interval < MIN_REQUEST_INTERVAL then
    (now + (MIN_REQUEST_INTERVAL - interval), st)
  else
    (now, st)

/-- A server response, as far as the client inspects it: the HTTP status code,
and the outcome of response.json() — some parsed value (a JSON array, the only
shape the client consumes) when parsing succeeds, none when it raises. -/
structure Response where
  status_code : ℕ
  json : Option (List ℕ)
deriving DecidableEq

/-- Truthiness of a requests.Response object: Response.__bool__ returns
self.ok, which is False exactly when raise_for_status would raise, that is for
status codes 400 and above. So `if response:` in the source is NOT a None test:
a 4xx or 5xx response is falsy. -/
def Response.ok (r : Response) : Bool :=
  decide (r.status_code < 400)

/-- Everything request_with_retries produces, observable from outside:
the returned value (some response or None), the total number of calls made to
execute_request, the recorded backoff delays (the value of the delay variable
at each retry, before doubling), and the jittered sleeps actually taken. -/
structure RetryResult where
  response : Option Response
  attempts : ℕ
  delays : List ℚ
  sleeps : List ℚ
deriving DecidableEq

/-- The early-return decision of one iteration of request_with_retries: the
source runs `if response:` (requests truthiness, see Response.ok) and then
`if response.status_code < 500: return response`. So some r is returned when
the response exists, is truthy (status below 400) and has status below 500;
a falsy or absent response, and the (dead) status-at-least-500 logging branch,
fall through to the retry logic, here signalled by none. -/
def loop_return (response : Option Response) : Option Response :=
  match response with
  | some r => if r.ok then (if r.status_code < 500 then some r else none) else none
  | none => none

/-- Embedding of the while-loop of EO_Net.request_with_retries. The attempt
function gives the outcome of execute_request on the k-th call (counting from
0): none for an exception caught inside execute_request, some r for a server
response r. The draw u k is the random.random() value consumed by the jitter
of the k-th retry decision. The argument remaining equals
NUM_RETRIES - retries, so the break at the check `if retries == NUM_RETRIES`
is taken when remaining reaches 0. A retry records
jittered_delay = jitter(delay, JITTER_FACTOR), doubles delay, increments
retries and sleeps the jittered delay. -/
def request_loop (attempt : ℕ → Option Response) (u : ℕ → ℚ) :
    ℕ → ℚ → ℕ → RetryResult
  | retries, delay, 0 =>
    match loop_return (attempt retries) with
    | some r => ⟨some r, retries + 1, [], []⟩
    | none => ⟨none, retries + 1, [], []⟩
  | retries, delay, remaining' + 1 =>
    match loop_return (attempt retries) with
    | some r => ⟨some r, retries + 1, [], []⟩
    | none =>
      let jittered_delay := jitter delay JITTER_FACTOR (u retries)
      let rest := request_loop attempt u (retries + 1) (delay * 2) remaining'
      ⟨rest.response, rest.attempts, delay :: rest.delays,
        jittered_delay :: rest.sleeps⟩

/-- Embedding of EO_Net.request_with_retries: run the loop from retries = 0 and
delay = INITIAL_RETRY_DELAY, with NUM_RETRIES further tries allowed. -/
def request_with_retries (attempt : ℕ → Option Response) (u : ℕ → ℚ) : RetryResult :=
  request_loop attempt u 0 INITIAL_RETRY_DELAY NUM_RETRIES

/-- Embedding of EO_Net.make_request: call request_with_retries; on None return
None; on a response with status code below 200 or at least 300 return None;
otherwise return the response itself, or, when parse_json is set, the parsed
JSON body — None when response.json() raises. -/
def make_request (attempt : ℕ → Option Response) (u : ℕ → ℚ) (parse_json : Bool) :
    Option (Response ⊕ List ℕ) :=
  match (request_with_retries attempt u).response with
  | none => none
  | some response =>
    if response.status_code < 200 ∨ 300 ≤ response.status_code then none
    else if ¬ parse_json then some (Sum.inl response)
    else
      match response.json with
      | some j => some (Sum.inr j)
      | none => none

end EO_Net

namespace EO_API

/-- Mutable state of EO_API relevant to session management: whether
self.net.session is a session object (signed_in) and the recorded
last_signin_time (initialized to 0). -/
structure ApiState where
  signed_in : Bool
  last_signin_time : ℚ
deriving DecidableEq

/-- Embedding of EO_API.check_signin_status. The argument now is time.clock()
at the call; the outcome of the signin() procedure, when it runs, is abstracted
by signin_succeeds (whether a session is present after it returns). The result
is the pair (returned value, whether signin() was called): the source signs in
when not signed in or when now - last_signin_time exceeds
SIGNIN_INTERVAL_IN_HOURS * 3600.0, and then returns False when still not
signed in; in all other paths it returns True. -/
def check_signin_status (st : ApiState) (now : ℚ) (signin_succeeds : Bool) :
    Bool × Bool :=
  let time_since_signin := now - st.last_signin_time
  if st.signed_in = false ∨ time_since_signin > SIGNIN_INTERVAL_IN_HOURS * 3600 then
    if signin_succeeds then (true, true) else (false, true)
  else
    (true, false)

/-- Class variable EO_API.base_url. -/
def base_url : String := "https://www.electricobjects.com/"

/-- Class variable EO_API.api_version_path. -/
def api_version_path : String := "api/v2/"

/-- Class variable EO_API.endpoints: the endpoint descriptor table. -/
def endpoints : List (String × String) :=
  [("user", "user/"),
   ("devices", "user/devices/"),
   ("displayed", "user/artworks/displayed/"),
   ("favorited", "user/artworks/favorited/")]

/-- A network activity observable from make_request: a sign-in attempt
performed inside check_signin_status (signin posts to the sign-in page through
the network), or a request to a resolved API endpoint URL. -/
inductive NetAction where
  | signin_attempt : NetAction
  | api_request (url : String) : NetAction
deriving DecidableEq

/-- Embedding of EO_API.make_request. The first result component is the value
returned; the second is the ordered trace of network activities: the source
first runs check_signin_status (returning None when it fails), only then tests
endpoint membership in self.endpoints (returning None when unknown), builds
url = base_url + api_version_path + endpoints[endpoint] + path_append, and
finally calls self.net.make_request on that url. -/
def make_request (st : ApiState) (now : ℚ) (signin_succeeds : Bool)
    (endpoint : String) (path_append : Option String)
    (attempt : ℕ → Option EO_Net.Response) (u : ℕ → ℚ) (parse_json : Bool) :
    Option (EO_Net.Response ⊕ List ℕ) × List NetAction :=
  let signin := check_signin_status st now signin_succeeds
  let signin_trace : List NetAction :=
    if signin.2 then [NetAction.signin_attempt] else []
  if signin.1 = false then (none, signin_trace)
  else
    match endpoints.lookup endpoint with
    | none => (none, signin_trace)
    | some path =>
      let url := base_url ++ api_version_path ++ path ++ path_append.getD ""
      (EO_Net.make_request attempt u parse_json,
        signin_trace ++ [NetAction.api_request url])

end EO_API

namespace Scheduler

/-- A wall-clock time of day, as datetime.time(h, m): an hour and a minute.
The fields are integers as produced by int() during schedule parsing;
ingest_schedule only ever stores values with hour in [0, 23] and minute in
[0, 59]. -/
structure Time where
  hour : ℤ
  minute : ℤ
deriving DecidableEq

/-- Comparison of datetime.time values: lexicographic on (hour, minute). -/
def Time.ltB (a b : Time) : Bool :=
  decide (a.hour < b.hour) || (decide (a.hour = b.hour) && decide (a.minute < b.minute))

/-- The order used by list.sort() on datetime.time values: a comes before b
when b is not strictly smaller. -/
def timeLE (a b : Time) : Prop := Time.ltB b a = false

instance : DecidableRel timeLE := fun a b => by
  unfold timeLE
  infer_instance

instance : IsTotal Time timeLE := ⟨by
  intro a b
  by_cases h : timeLE a b
  · exact Or.inl h
  · refine Or.inr ?_
    unfold timeLE at h ⊢
    simp only [Bool.not_eq_false] at h
    simp only [Time.ltB, Bool.or_eq_true, Bool.and_eq_true, decide_eq_true_eq] at h
    simp only [Time.ltB, Bool.or_eq_false_iff, Bool.and_eq_false_iff,
      decide_eq_false_iff_not, not_lt]
    omega⟩

instance : IsTrans Time timeLE := ⟨by
  intro a b c hab hbc
  unfold timeLE at hab hbc ⊢
  simp only [Time.ltB, Bool.or_eq_false_iff, Bool.and_eq_false_iff,
    decide_eq_false_iff_not, not_lt] at hab hbc ⊢
  omega⟩

/-- A combined date and time, as datetime.datetime.combine(day, t): the date is
a day number. Comparison is date first, then time of day. -/
structure DateTime where
  day : ℤ
  time : Time
deriving DecidableEq

/-- Comparison of datetime.datetime values: lexicographic, date then time. -/
def DateTime.ltB (a b : DateTime) : Bool :=
  decide (a.day < b.day) || (decide (a.day = b.day) && Time.ltB a.time b.time)

/-- The semantics of t.split(":") on the characters of t: "a:b:c" gives three
groups, the empty string gives one empty group, and a separator at either end
gives an empty group there. -/
def split_on_colon : List Char → List (List Char)
  | [] => [[]]
  | c :: rest =>
    if c = ':' then [] :: split_on_colon rest
    else
      match split_on_colon rest with
      | [] => [[c]]
      | g :: gs => (c :: g) :: gs

/-- Accumulating decimal digit parser: none as soon as a non-digit occurs. -/
def parse_digits : List Char → ℕ → Option ℕ
  | [], acc => some acc
  | c :: rest, acc =>
    if c.isDigit then parse_digits rest (10 * acc + (c.toNat - 48))
    else none

/-- The semantics of int() applied to one group: an optional minus sign
followed by at least one decimal digit; anything else raises ValueError,
modelled by none. (int() additionally tolerates surrounding whitespace and an
explicit plus sign, forms that do not occur in schedule configuration
strings.) -/
def chars_toInt : List Char → Option ℤ
  | [] => none
  | '-' :: rest =>
    match rest with
    | [] => none
    | _ :: _ => (parse_digits rest 0).map (fun n => -(n : ℤ))
  | cs => (parse_digits cs 0).map (fun n => (n : ℤ))

/-- The parse step of ingest_schedule: (h, m) = map(int, t.split(":")) raises
— caught by the loop — unless the string splits on ":" into exactly two
int-parseable groups. -/
def parse_time (t : String) : Option (ℤ × ℤ) :=
  match (split_on_colon t.toList).map chars_toInt with
  | [some h, some m] => some (h, m)
  | _ => none

/-- One full validation step of ingest_schedule on a single string: some time
when the string parses and passes the range check
(not (h < 0 or h > 23 or m < 0 or m > 59)), none when the entry is dropped
with a reported error. -/
def valid_parse (t : String) : Option Time :=
  match parse_time t with
  | some (h, m) =>
    if h < 0 ∨ h > 23 ∨ m < 0 ∨ m > 59 then none else some ⟨h, m⟩
  | none => none

/-- The for-loop of ingest_schedule: the accumulator carries self.schedule (in
append order) and the count of reported errors. Each string is parsed; a parse
failure or a failed range check increments the error count (the source logs
the exception), otherwise datetime.time(h, m) is appended. -/
def ingest_loop : List String → List Time × ℕ → List Time × ℕ
  | [], acc => acc
  | t :: rest, acc =>
    match parse_time t with
    | some (h, m) =>
      if h < 0 ∨ h > 23 ∨ m < 0 ∨ m > 59 then ingest_loop rest (acc.1, acc.2 + 1)
      else ingest_loop rest (acc.1 ++ [⟨h, m⟩], acc.2)
    | none => ingest_loop rest (acc.1, acc.2 + 1)

/-- Embedding of Scheduler.ingest_schedule: run the loop over the configured
strings, then self.schedule.sort() — a stable sort in the time order. The
second component counts the reported (non-fatal) errors. -/
def ingest_schedule (schedule : List String) : List Time × ℕ :=
  let folded := ingest_loop schedule ([], 0)
  (List.insertionSort timeLE folded.1, folded.2)

/-- Embedding of Scheduler.next_event_after: scan the schedule in order and
return the first time on the given day strictly later than last_time, or none
when every slot of that day has passed. -/
def next_event_after (schedule : List Time) (day : ℤ) (last_time : DateTime) :
    Option DateTime :=
  match schedule with
  | [] => none
  | t :: rest =>
    let next_time : DateTime := ⟨day, t⟩
    if DateTime.ltB last_time next_time then some next_time
    else next_event_after rest day last_time

/-- Embedding of Scheduler.next_event: next_event_after on today, and when
every slot today has passed, the first entry of the schedule on the following
day. On an empty schedule the fallback self.schedule[0] raises IndexError,
modelled by none; run() guards against the empty schedule before looping. -/
def next_event (schedule : List Time) (today : ℤ) (last_time : DateTime) :
    Option DateTime :=
  match next_event_after schedule today last_time with
  | some e => some e
  | none =>
    match schedule with
    | [] => none
    | first_time :: _ => some ⟨today + 1, first_time⟩

/-- The while-loop of Scheduler.run, truncated to its first fuel iterations:
each iteration computes next_time = next_event(last_time), saves it as
last_time before jitter is added, and runs the scheduled callback once at the
jittered wake time. The returned list collects the successive (unjittered)
next_event values; its length is the number of callback invocations within the
first fuel iterations. -/
def run_loop (schedule : List Time) (today : ℤ) : DateTime → ℕ → List DateTime
  | _, 0 => []
  | last_time, fuel + 1 =>
    match next_event schedule today last_time with
    | none => []
    | some next_time => next_time :: run_loop schedule today next_time fuel

/-- Embedding of Scheduler.run: when the validated schedule is empty it logs
the fatal error "No valid schedule to run" and returns before the loop, here
(true, []) — no callback invocation ever happens. Otherwise the loop runs
(forever in the source; its first fuel iterations here), invoking the callback
once per iteration. -/
def run (schedule : List Time) (today : ℤ) (now : DateTime) (fuel : ℕ) :
    Bool × List DateTime :=
  if schedule.isEmpty then (true, [])
  else (false, run_loop schedule today now fuel)

end Scheduler

namespace EO

/-- Embedding of ElectricObject.make_JSON_request, parameterized by the
response that the inner self.make_request call produced: None yields [], a
status code other than requests.codes.ok (200) yields [], a JSON parse failure
yields [], and otherwise the parsed body is returned. -/
def make_JSON_request (response : Option EO_Net.Response) : List ℕ :=
  match response with
  | none => []
  | some r =>
    if r.status_code ≠ 200 then []
    else
      match r.json with
      | some j => j
      | none => []

/-- The while-loop of ElectricObject.favorites. The function pages takes an
offset and gives the JSON array that the make_JSON_request call with
parameters limit = NUM_FAVORITES_PER_REQUEST and offset returned (already [] on
any error). An empty result breaks; otherwise the page is appended, a short
page (fewer than NUM_FAVORITES_PER_REQUEST items) breaks, a total strictly
above MAX_FAVORITES_FOR_DISPLAY truncates to MAX_FAVORITES_FOR_DISPLAY and
breaks, and otherwise the loop continues at offset + NUM_FAVORITES_PER_REQUEST.
The fuel argument bounds the number of iterations; favorites_fuel_stable shows
any fuel at least FAVORITES_FUEL gives the same value, because each continuing
iteration grows the accumulator by NUM_FAVORITES_PER_REQUEST while it stays
at most MAX_FAVORITES_FOR_DISPLAY. -/
def favorites_loop (pages : ℕ → List ℕ) : ℕ → ℕ → List ℕ → List ℕ
  | 0, _, favorites => favorites
  | fuel + 1, offset, favorites =>
    let result_JSON := pages offset
    if result_JSON.isEmpty then favorites
    else
      let favorites' := favorites ++ result_JSON
      if result_JSON.length < NUM_FAVORITES_PER_REQUEST then favorites'
      else if MAX_FAVORITES_FOR_DISPLAY < favorites'.length then
        favorites'.take MAX_FAVORITES_FOR_DISPLAY
      else favorites_loop pages fuel (offset + NUM_FAVORITES_PER_REQUEST) favorites'

/-- Iterations enough for favorites_loop never to hit the fuel bound: 7. -/
def FAVORITES_FUEL : ℕ :=
  MAX_FAVORITES_FOR_DISPLAY / NUM_FAVORITES_PER_REQUEST + 1

/-- Embedding of ElectricObject.favorites: the loop, from offset 0 and an empty
accumulator. -/
def favorites (pages : ℕ → List ℕ) : List ℕ :=
  favorites_loop pages FAVORITES_FUEL 0 []

/-- A concrete paging behaviour: six full pages of NUM_FAVORITES_PER_REQUEST
items at offsets 0, 30, ..., 150, then a short page of 29 items at offset 180,
then nothing. -/
def short_last_pages (offset : ℕ) : List ℕ :=
  if offset < 180 then List.replicate 30 0
  else if offset = 180 then List.replicate 29 0
  else []

/-- A paging behaviour whose first page is already short: every page holds the
two items 5 and 6. -/
def two_item_pages : ℕ → List ℕ := fun _ => [5, 6]

end EO

/-- C8: for every positive value, factor between 0 and 1, and uniform draw u in
[0, 1] (so that 2 * u - 1 ranges over [-1, 1]), jitter(value, factor) lies in
the closed interval [value * (1 - factor), value * (1 + factor)], is symmetric
around value in the draw, and with factor = 0 equals value exactly. -/
theorem jitter_bounds (value factor u : ℚ)
    (hv : 0 < value) (hf0 : 0 ≤ factor) (hf1 : factor ≤ 1)
    (hu0 : 0 ≤ u) (hu1 : u ≤ 1) :
    value * (1 - factor) ≤ jitter value factor u
    ∧ jitter value factor u ≤ value * (1 + factor)
    ∧ jitter value factor u + jitter value factor (1 - u) = 2 * value
    ∧ jitter value 0 u = value := by
  unfold jitter
  refine ⟨by nlinarith [mul_nonneg (mul_nonneg hv.le hf0) hu0],
          by nlinarith [mul_nonneg (mul_nonneg hv.le hf0) (sub_nonneg.mpr hu1)],
          by ring, by ring⟩

/-- Witness for jitter_bounds at value = 1, factor = 1/2, u = 3/4. -/
theorem jitter_bounds_witness :
    (1 : ℚ) * (1 - 1/2) ≤ jitter 1 (1/2) (3/4)
    ∧ jitter 1 (1/2) (3/4) ≤ 1 * (1 + 1/2)
    ∧ jitter 1 (1/2) (3/4) + jitter 1 (1/2) (1 - 3/4) = 2 * 1
    ∧ jitter 1 0 (3/4) = 1 :=
  jitter_bounds 1 (1/2) (3/4) (by norm_num) (by norm_num) (by norm_num)
    (by norm_num) (by norm_num)

/-- C1: evaluation of the rate-limit gate at a failing input. Starting from the
initial state (last_request_time = 0), a call entering at clock 1 is released
immediately and the state is unchanged, so a second call entering at clock
21/20 is also released immediately: the two network attempts start 1/20 of a
second apart, below MIN_REQUEST_INTERVAL, and last_request_time was never
updated to the time of the first attempt. -/
theorem check_request_rate_broken_spacing :
    (EO_Net.check_request_rate ⟨0⟩ 1).2 = ⟨0⟩
    ∧ (EO_Net.check_request_rate ⟨0⟩ 1).1 = 1
    ∧ (EO_Net.check_request_rate ((EO_Net.check_request_rate ⟨0⟩ 1).2) (21/20)).1 = 21/20
    ∧ (21/20 : ℚ) - 1 < MIN_REQUEST_INTERVAL := by
  refine ⟨?_, ?_, ?_, ?_⟩ <;>
    norm_num [EO_Net.check_request_rate, MIN_REQUEST_INTERVAL]

/-- C2: evaluation of request_with_retries at an attempt function that always
returns a 404 response. Because `if response:` tests requests truthiness and a
404 response is falsy, the 404 is never returned: the request is retried until
the retry budget is exhausted, making NUM_RETRIES + 1 attempts and returning
None, where the claim (and the docstring of the function itself) says a single
attempt is made and the 404 response is returned. -/
theorem request_with_retries_404_retried :
    (EO_Net.request_with_retries (fun _ => some ⟨404, none⟩) (fun _ => 1/2)).attempts
        = NUM_RETRIES + 1
    ∧ (EO_Net.request_with_retries (fun _ => some ⟨404, none⟩) (fun _ => 1/2)).response
        = none := by
  constructor <;> rfl

/-- Helper for C3: the recorded delays do not depend on the jitter draws. -/
theorem request_loop_delays_indep (attempt : ℕ → Option EO_Net.Response) (u u' : ℕ → ℚ) :
    ∀ remaining retries delay,
      (EO_Net.request_loop attempt u retries delay remaining).delays
        = (EO_Net.request_loop attempt u' retries delay remaining).delays := by
  intro remaining
  induction remaining with
  | zero =>
    intro retries delay
    cases h : EO_Net.loop_return (attempt retries) <;>
      simp [EO_Net.request_loop, h]
  | succ n ih =>
    intro retries delay
    cases h : EO_Net.loop_return (attempt retries) <;>
      simp [EO_Net.request_loop, h, ih]

/-- Helper for C3: starting from the recorded delay d, the list of recorded
delays is d, 2 * d, 4 * d, and so on: the i-th recorded delay is d * 2 ^ i. -/
theorem request_loop_delays_eq (attempt : ℕ → Option EO_Net.Response) (u : ℕ → ℚ) :
    ∀ remaining retries delay,
      (EO_Net.request_loop attempt u retries delay remaining).delays
        = (List.range
            (EO_Net.request_loop attempt u retries delay remaining).delays.length).map
            (fun i => delay * 2 ^ i) := by
  intro remaining
  induction remaining with
  | zero =>
    intro retries delay
    cases h : EO_Net.loop_return (attempt retries) <;>
      simp [EO_Net.request_loop, h]
  | succ n ih =>
    intro retries delay
    cases h : EO_Net.loop_return (attempt retries)
    · have hrec := ih (retries + 1) (delay * 2)
      obtain ⟨m, hm⟩ :
          ∃ m, (EO_Net.request_loop attempt u (retries + 1) (delay * 2) n).delays.length
                = m := ⟨_, rfl⟩
      rw [hm] at hrec
      simp only [EO_Net.request_loop, h]
      rw [hrec]
      simp only [List.length_cons, List.length_map, List.length_range,
        List.range_succ_eq_map, List.map_cons, List.map_map]
      refine List.cons_eq_cons.mpr ⟨by norm_num, ?_⟩
      apply List.map_congr_left
      intro i _
      simp only [Function.comp_apply, Nat.succ_eq_add_one]
      ring
    · simp [EO_Net.request_loop, h]

/-- C3: the recorded backoff delay before the k-th retry (0-indexed position
k - 1 in the delays list) equals INITIAL_RETRY_DELAY * 2 ^ (k - 1) — the
recorded delay strictly doubles between retries starting from
INITIAL_RETRY_DELAY — and the recorded delays are the same for any jitter
draws: jitter affects only the sleeps, never the recorded delay used for the
next doubling. -/
theorem request_with_retries_delays_double (attempt : ℕ → Option EO_Net.Response)
    (u u' : ℕ → ℚ) :
    (EO_Net.request_with_retries attempt u).delays
      = (List.range (EO_Net.request_with_retries attempt u).delays.length).map
          (fun i => INITIAL_RETRY_DELAY * 2 ^ i)
    ∧ (EO_Net.request_with_retries attempt u).delays
        = (EO_Net.request_with_retries attempt u').delays := by
  constructor
  · exact request_loop_delays_eq attempt u NUM_RETRIES 0 INITIAL_RETRY_DELAY
  · exact request_loop_delays_indep attempt u u' NUM_RETRIES 0 INITIAL_RETRY_DELAY

/-- C10: every response with a status code outside the 200-299 success range
that reaches EO_Net.make_request from the retry layer is absorbed into None; a
JSON parse failure also yields None; and the eo.py JSON variant
make_JSON_request turns an absent response, a non-200 status or a parse
failure into [] rather than an exception. -/
theorem make_request_absorbs_errors (attempt : ℕ → Option EO_Net.Response)
    (u : ℕ → ℚ) (r : EO_Net.Response) :
    ((EO_Net.request_with_retries attempt u).response = some r →
      (r.status_code < 200 ∨ 300 ≤ r.status_code) →
        ∀ parse_json, EO_Net.make_request attempt u parse_json = none)
    ∧ ((EO_Net.request_with_retries attempt u).response = some r →
        r.json = none → EO_Net.make_request attempt u true = none)
    ∧ EO.make_JSON_request none = []
    ∧ (r.json = none → EO.make_JSON_request (some r) = []) := by
  refine ⟨?_, ?_, rfl, ?_⟩
  · intro h hs pj
    simp only [EO_Net.make_request, h]
    simp [hs]
  · intro h hj
    simp only [EO_Net.make_request, h]
    by_cases hs : r.status_code < 200 ∨ 300 ≤ r.status_code
    · simp [hs]
    · simp [hs, hj]
  · intro hj
    by_cases h200 : r.status_code = 200
    · simp [EO.make_JSON_request, hj, h200]
    · simp [EO.make_JSON_request, hj, h200]

/-- Witness for make_request_absorbs_errors: an attempt function that always
returns a 300 response with an unparseable body; the retry layer returns the
300 unchanged and the request layer absorbs it. -/
theorem make_request_absorbs_errors_witness :
    EO_Net.make_request (fun _ => some ⟨300, none⟩) (fun _ => 0) false = none
    ∧ EO_Net.make_request (fun _ => some ⟨300, none⟩) (fun _ => 0) true = none
    ∧ EO.make_JSON_request (some ⟨300, none⟩) = [] :=
  ⟨(make_request_absorbs_errors (fun _ => some ⟨300, none⟩) (fun _ => 0)
      ⟨300, none⟩).1 rfl (Or.inr (by norm_num)) false,
   (make_request_absorbs_errors (fun _ => some ⟨300, none⟩) (fun _ => 0)
      ⟨300, none⟩).2.1 rfl rfl,
   (make_request_absorbs_errors (fun _ => some ⟨300, none⟩) (fun _ => 0)
      ⟨300, none⟩).2.2.2 rfl⟩

/-- C5 counterexample: with a session present and elapsed time since the last
signin exactly SIGNIN_INTERVAL_IN_HOURS (14400 seconds), check_signin_status
does not call signin — the source compares with strict > — and returns True,
although the claim requires a signin call whenever the elapsed time is greater
than or equal to the interval. The signin outcome argument false shows no
signin happened: a signin attempt with that outcome would have returned
False. -/
theorem check_signin_status_boundary_cex :
    EO_API.check_signin_status ⟨true, 0⟩ (SIGNIN_INTERVAL_IN_HOURS * 3600) false
      = (true, false)
    ∧ (SIGNIN_INTERVAL_IN_HOURS * 3600 : ℚ) - 0 ≥ SIGNIN_INTERVAL_IN_HOURS * 3600 := by
  constructor
  · norm_num [EO_API.check_signin_status, SIGNIN_INTERVAL_IN_HOURS]
  · norm_num

/-- C5 amended: check_signin_status does not call signin when the client is
signed in and the elapsed time is at most the interval (in particular when it
is below); it calls signin whenever the client is signed out, and whenever the
elapsed time strictly exceeds the interval; and it returns true exactly when a
usable session results — when signin is called the result is the signin
outcome, otherwise it is true. -/
theorem check_signin_status_spec (st : EO_API.ApiState) (now : ℚ) (sr : Bool) :
    (st.signed_in = true →
      now - st.last_signin_time ≤ SIGNIN_INTERVAL_IN_HOURS * 3600 →
        EO_API.check_signin_status st now sr = (true, false))
    ∧ (st.signed_in = false → (EO_API.check_signin_status st now sr).2 = true)
    ∧ (now - st.last_signin_time > SIGNIN_INTERVAL_IN_HOURS * 3600 →
        (EO_API.check_signin_status st now sr).2 = true)
    ∧ ((EO_API.check_signin_status st now sr).2 = true →
        (EO_API.check_signin_status st now sr).1 = sr)
    ∧ ((EO_API.check_signin_status st now sr).2 = false →
        (EO_API.check_signin_status st now sr).1 = true) := by
  by_cases h1 : st.signed_in = false ∨
      now - st.last_signin_time > SIGNIN_INTERVAL_IN_HOURS * 3600
  · have hu : EO_API.check_signin_status st now sr
        = if sr then (true, true) else (false, true) := by
      simp only [EO_API.check_signin_status, if_pos h1]
    refine ⟨?_, ?_, ?_, ?_, ?_⟩
    · intro hsi hle
      rcases h1 with h | h
      · rw [hsi] at h; exact absurd h (by simp)
      · linarith
    · intro _; rw [hu]; cases sr <;> rfl
    · intro _; rw [hu]; cases sr <;> rfl
    · intro _; rw [hu]; cases sr <;> rfl
    · intro hnc; rw [hu] at hnc; cases sr <;> simp_all
  · have hu : EO_API.check_signin_status st now sr = (true, false) := by
      simp only [EO_API.check_signin_status, if_neg h1]
    push_neg at h1
    refine ⟨fun _ _ => hu, ?_, ?_, ?_, ?_⟩
    · intro hsi; exact absurd hsi h1.1
    · intro hgt; exact absurd h1.2 (not_le.mpr hgt)
    · intro hc; rw [hu] at hc; simp at hc
    · intro _; rw [hu]

/-- Witness for check_signin_status_spec: signed in one second after signin,
no new signin is attempted and the call reports a usable session. -/
theorem check_signin_status_spec_witness :
    EO_API.check_signin_status ⟨true, 0⟩ 1 true = (true, false) :=
  (check_signin_status_spec ⟨true, 0⟩ 1 true).1 rfl
    (by norm_num [SIGNIN_INTERVAL_IN_HOURS])

/-- C4 counterexample: calling make_request with the unknown endpoint name
"bogus" from the initial state (signed out, last signin time 0) returns None,
but the network trace contains a sign-in attempt: check_signin_status runs —
and signs in over the network — before the endpoint name is resolved, while
the claim says no network attempt of any kind is made before returning. -/
theorem make_request_signin_precedes_resolution_cex :
    EO_API.endpoints.lookup "bogus" = none
    ∧ EO_API.make_request ⟨false, 0⟩ 0 true "bogus" none (fun _ => none)
        (fun _ => 0) false
      = (none, [EO_API.NetAction.signin_attempt]) := by
  constructor <;> rfl

/-- C4 amended: for every state and every endpoint name missing from the
endpoint table, make_request returns None without issuing any request to an
endpoint URL (so no retry and no call into the network request layer for the
endpoint), but only after the sign-in check, which runs before endpoint-name
resolution and may itself perform a network sign-in attempt. -/
theorem make_request_unknown_endpoint_spec (st : EO_API.ApiState) (now : ℚ)
    (sr : Bool) (endpoint : String) (pa : Option String)
    (attempt : ℕ → Option EO_Net.Response) (u : ℕ → ℚ) (pj : Bool)
    (h : EO_API.endpoints.lookup endpoint = none) :
    (EO_API.make_request st now sr endpoint pa attempt u pj).1 = none
    ∧ ∀ url, EO_API.NetAction.api_request url
        ∉ (EO_API.make_request st now sr endpoint pa attempt u pj).2 := by
  constructor
  · simp only [EO_API.make_request, h]
    by_cases hs : (EO_API.check_signin_status st now sr).1 = false <;> simp [hs]
  · intro url
    simp only [EO_API.make_request, h]
    by_cases hs : (EO_API.check_signin_status st now sr).1 = false <;>
      simp only [hs, if_pos, if_neg, Bool.false_eq_true, if_false] <;>
      by_cases hc : (EO_API.check_signin_status st now sr).2 = true <;>
      simp [hs, hc]

/-- Witness for make_request_unknown_endpoint_spec at the endpoint name
"nope" from a signed-in state. -/
theorem make_request_unknown_endpoint_witness :
    (EO_API.make_request ⟨true, 0⟩ 0 true "nope" none (fun _ => none)
        (fun _ => 0) false).1 = none
    ∧ ∀ url, EO_API.NetAction.api_request url
        ∉ (EO_API.make_request ⟨true, 0⟩ 0 true "nope" none (fun _ => none)
            (fun _ => 0) false).2 :=
  make_request_unknown_endpoint_spec ⟨true, 0⟩ 0 true "nope" none
    (fun _ => none) (fun _ => 0) false rfl

/-- Helper: the strict lexicographic time comparison is irreflexive. -/
theorem time_ltB_irrefl (t : Scheduler.Time) : Scheduler.Time.ltB t t = false := by
  simp [Scheduler.Time.ltB]

/-- Helper for C6: when next_event_after finds an event, that event combines
the given day with a schedule entry, lies strictly after last_time, and — for
a sorted schedule — no strictly earlier schedule entry also lies after
last_time on that day. -/
theorem next_event_after_some (schedule : List Scheduler.Time) (day : ℤ)
    (last_time e : Scheduler.DateTime)
    (hsort : schedule.Sorted Scheduler.timeLE)
    (h : Scheduler.next_event_after schedule day last_time = some e) :
    e.day = day ∧ e.time ∈ schedule
    ∧ Scheduler.DateTime.ltB last_time e = true
    ∧ ∀ t ∈ schedule, Scheduler.DateTime.ltB last_time ⟨day, t⟩ = true →
        Scheduler.Time.ltB t e.time = false := by
  induction schedule with
  | nil => simp [Scheduler.next_event_after] at h
  | cons t rest ih =>
    rw [Scheduler.next_event_after] at h
    by_cases hlt : Scheduler.DateTime.ltB last_time ⟨day, t⟩ = true
    · rw [if_pos hlt] at h
      obtain rfl : (⟨day, t⟩ : Scheduler.DateTime) = e := Option.some_injective _ h
      refine ⟨rfl, List.mem_cons_self t rest, hlt, ?_⟩
      intro t' ht' _
      rcases List.mem_cons.mp ht' with h' | h'
      · subst h'; exact time_ltB_irrefl t'
      · exact (List.sorted_cons.mp hsort).1 t' h'
    · rw [if_neg hlt] at h
      obtain ⟨hday, hmem, hafter, hmin⟩ :=
        ih (List.sorted_cons.mp hsort).2 h
      refine ⟨hday, List.mem_cons_of_mem t hmem, hafter, ?_⟩
      intro t' ht' hlt'
      rcases List.mem_cons.mp ht' with h' | h'
      · subst h'; exact absurd hlt' hlt
      · exact hmin t' h' hlt'

/-- Helper for C6: next_event_after finds nothing exactly when every schedule
entry combined with the day is at or before last_time. -/
theorem next_event_after_none (schedule : List Scheduler.Time) (day : ℤ)
    (last_time : Scheduler.DateTime) :
    Scheduler.next_event_after schedule day last_time = none ↔
      ∀ t ∈ schedule, Scheduler.DateTime.ltB last_time ⟨day, t⟩ = false := by
  induction schedule with
  | nil => simp [Scheduler.next_event_after]
  | cons t rest ih =>
    rw [Scheduler.next_event_after]
    by_cases hlt : Scheduler.DateTime.ltB last_time ⟨day, t⟩ = true
    · simp [if_pos hlt, hlt]
    · have hlt' : Scheduler.DateTime.ltB last_time ⟨day, t⟩ = false :=
        Bool.not_eq_true _ ▸ (by simpa using hlt)
      simp [if_neg hlt, ih, hlt']

/-- C6: for a non-empty sorted schedule table and any instant, next_event
returns an event: the first schedule time of the current day strictly later
than the instant when one exists, and otherwise the first (earliest) schedule
time combined with the following day; hence a next event always exists. -/
theorem next_event_spec (schedule : List Scheduler.Time) (today : ℤ)
    (after : Scheduler.DateTime) (hne : schedule ≠ [])
    (hsort : schedule.Sorted Scheduler.timeLE) :
    ∃ e, Scheduler.next_event schedule today after = some e
    ∧ ((∃ t ∈ schedule, Scheduler.DateTime.ltB after ⟨today, t⟩ = true) →
        e.day = today ∧ e.time ∈ schedule
        ∧ Scheduler.DateTime.ltB after e = true
        ∧ ∀ t ∈ schedule, Scheduler.DateTime.ltB after ⟨today, t⟩ = true →
            Scheduler.Time.ltB t e.time = false)
    ∧ ((∀ t ∈ schedule, Scheduler.DateTime.ltB after ⟨today, t⟩ = false) →
        e.day = today + 1 ∧ schedule.head? = some e.time
        ∧ ∀ t ∈ schedule, Scheduler.Time.ltB t e.time = false) := by
  cases hnea : Scheduler.next_event_after schedule today after with
  | some x =>
    refine ⟨x, ?_, ?_, ?_⟩
    · simp [Scheduler.next_event, hnea]
    · intro _
      exact next_event_after_some schedule today after x hsort hnea
    · intro hall
      have hnone := (next_event_after_none schedule today after).mpr hall
      rw [hnone] at hnea
      cases hnea
  | none =>
    match schedule, hne, hsort with
    | t :: rest, _, hsort =>
      refine ⟨⟨today + 1, t⟩, ?_, ?_, ?_⟩
      · simp [Scheduler.next_event, hnea]
      · rintro ⟨t', ht', hlt⟩
        have hall := (next_event_after_none (t :: rest) today after).mp hnea
        rw [hall t' ht'] at hlt
        cases hlt
      · intro _
        refine ⟨rfl, rfl, ?_⟩
        intro t' ht'
        rcases List.mem_cons.mp ht' with h' | h'
        · subst h'; exact time_ltB_irrefl t'
        · exact (List.sorted_cons.mp hsort).1 t' h'

/-- Witness for next_event_spec: the schedule 07:00, 12:00 on day 0, queried
after 08:00 of day 0 (the specified result is 12:00 today; the theorem also
covers the 13:00 query whose result is 07:00 tomorrow). -/
theorem next_event_spec_witness :
    ∃ e, Scheduler.next_event [⟨7, 0⟩, ⟨12, 0⟩] 0 ⟨0, ⟨8, 0⟩⟩ = some e
    ∧ ((∃ t ∈ [(⟨7, 0⟩ : Scheduler.Time), ⟨12, 0⟩],
          Scheduler.DateTime.ltB ⟨0, ⟨8, 0⟩⟩ ⟨0, t⟩ = true) →
        e.day = 0 ∧ e.time ∈ [(⟨7, 0⟩ : Scheduler.Time), ⟨12, 0⟩]
        ∧ Scheduler.DateTime.ltB ⟨0, ⟨8, 0⟩⟩ e = true
        ∧ ∀ t ∈ [(⟨7, 0⟩ : Scheduler.Time), ⟨12, 0⟩],
            Scheduler.DateTime.ltB ⟨0, ⟨8, 0⟩⟩ ⟨0, t⟩ = true →
              Scheduler.Time.ltB t e.time = false)
    ∧ ((∀ t ∈ [(⟨7, 0⟩ : Scheduler.Time), ⟨12, 0⟩],
          Scheduler.DateTime.ltB ⟨0, ⟨8, 0⟩⟩ ⟨0, t⟩ = false) →
        e.day = 0 + 1 ∧ [(⟨7, 0⟩ : Scheduler.Time), ⟨12, 0⟩].head? = some e.time
        ∧ ∀ t ∈ [(⟨7, 0⟩ : Scheduler.Time), ⟨12, 0⟩],
            Scheduler.Time.ltB t e.time = false) :=
  next_event_spec [⟨7, 0⟩, ⟨12, 0⟩] 0 ⟨0, ⟨8, 0⟩⟩ (by decide) (by decide)

/-- Helper for C7: the validation loop appends exactly the entries that parse
and pass the range check, and counts one reported error per dropped entry. -/
theorem ingest_loop_eq (ss : List String) :
    ∀ acc : List Scheduler.Time × ℕ,
      Scheduler.ingest_loop ss acc
        = (acc.1 ++ ss.filterMap Scheduler.valid_parse,
           acc.2 + ss.countP (fun t => (Scheduler.valid_parse t).isNone)) := by
  induction ss with
  | nil =>
    intro acc
    simp [Scheduler.ingest_loop]
  | cons t rest ih =>
    intro acc
    rw [Scheduler.ingest_loop]
    cases hp : Scheduler.parse_time t with
    | none =>
      rw [ih]
      simp only [List.filterMap_cons, List.countP_cons, Scheduler.valid_parse, hp,
        Option.isNone_none, Prod.mk.injEq]
      exact ⟨trivial, by simp; omega⟩
    | some hm =>
      obtain ⟨h, m⟩ := hm
      dsimp only
      by_cases hv : h < 0 ∨ h > 23 ∨ m < 0 ∨ m > 59
      · rw [if_pos hv, ih]
        simp only [List.filterMap_cons, List.countP_cons, Scheduler.valid_parse, hp,
          if_pos hv, Option.isNone_none, Prod.mk.injEq]
        exact ⟨trivial, by simp; omega⟩
      · rw [if_neg hv, ih]
        simp only [List.filterMap_cons, List.countP_cons, Scheduler.valid_parse, hp,
          if_neg hv, Option.isNone_some, List.append_assoc, List.singleton_append,
          Prod.mk.injEq]
        exact ⟨trivial, by simp⟩

/-- C7: ingest_schedule keeps exactly the valid entries (a string that splits
into two integers within the ranges 0-23 and 0-59), reporting one non-fatal
error per dropped entry, and sorts the result ascending; and when the
validated table is empty, run reports the fatal configuration error and
performs no callback invocation at all. -/
theorem ingest_schedule_run_spec (ss : List String) (today : ℤ)
    (now : Scheduler.DateTime) (fuel : ℕ) :
    (Scheduler.ingest_schedule ss).1.Sorted Scheduler.timeLE
    ∧ (Scheduler.ingest_schedule ss).1.Perm (ss.filterMap Scheduler.valid_parse)
    ∧ (Scheduler.ingest_schedule ss).2
        = ss.countP (fun t => (Scheduler.valid_parse t).isNone)
    ∧ ((Scheduler.ingest_schedule ss).1 = [] →
        Scheduler.run (Scheduler.ingest_schedule ss).1 today now fuel
          = (true, [])) := by
  have hloop := ingest_loop_eq ss ([], 0)
  refine ⟨?_, ?_, ?_, ?_⟩
  · simp only [Scheduler.ingest_schedule]
    exact List.sorted_insertionSort Scheduler.timeLE _
  · simp only [Scheduler.ingest_schedule, hloop, List.nil_append]
    exact List.perm_insertionSort Scheduler.timeLE _
  · simp only [Scheduler.ingest_schedule, hloop]
    omega
  · intro hempty
    rw [hempty]
    simp [Scheduler.run]

/-- Witness for ingest_schedule_run_spec: the schedule list with entries
"25:00" (hour out of range) and "junk" (unparseable) validates to the empty
table, and run reports the fatal error with no callback invocation. -/
theorem ingest_schedule_run_spec_witness :
    Scheduler.run (Scheduler.ingest_schedule ["25:00", "junk"]).1 0 ⟨0, ⟨0, 0⟩⟩ 5
      = (true, []) :=
  (ingest_schedule_run_spec ["25:00", "junk"] 0 ⟨0, ⟨0, 0⟩⟩ 5).2.2.2 (by rfl)

/-- Helper for C9: an empty page breaks the loop at once. -/
theorem favorites_loop_succ_empty (pages : ℕ → List ℕ) (fuel offset : ℕ)
    (favs : List ℕ) (hemp : (pages offset).isEmpty = true) :
    EO.favorites_loop pages (fuel + 1) offset favs = favs := by
  simp [EO.favorites_loop, hemp]

/-- Helper for C9: a short page is appended and breaks the loop. -/
theorem favorites_loop_succ_short (pages : ℕ → List ℕ) (fuel offset : ℕ)
    (favs : List ℕ) (hemp : (pages offset).isEmpty = false)
    (hshort : (pages offset).length < NUM_FAVORITES_PER_REQUEST) :
    EO.favorites_loop pages (fuel + 1) offset favs = favs ++ pages offset := by
  simp [EO.favorites_loop, hemp, hshort]

/-- Helper for C9: a full page that pushes the total strictly above the
maximum truncates and breaks the loop. -/
theorem favorites_loop_succ_trunc (pages : ℕ → List ℕ) (fuel offset : ℕ)
    (favs : List ℕ) (hemp : (pages offset).isEmpty = false)
    (hlong : ¬ (pages offset).length < NUM_FAVORITES_PER_REQUEST)
    (hover : MAX_FAVORITES_FOR_DISPLAY < (favs ++ pages offset).length) :
    EO.favorites_loop pages (fuel + 1) offset favs
      = (favs ++ pages offset).take MAX_FAVORITES_FOR_DISPLAY := by
  have hover' : MAX_FAVORITES_FOR_DISPLAY < favs.length + (pages offset).length := by
    simpa [List.length_append] using hover
  simp [EO.favorites_loop, hemp, hlong, hover']

/-- Helper for C9: otherwise the loop continues at the next offset. -/
theorem favorites_loop_succ_cont (pages : ℕ → List ℕ) (fuel offset : ℕ)
    (favs : List ℕ) (hemp : (pages offset).isEmpty = false)
    (hlong : ¬ (pages offset).length < NUM_FAVORITES_PER_REQUEST)
    (hnover : ¬ MAX_FAVORITES_FOR_DISPLAY < (favs ++ pages offset).length) :
    EO.favorites_loop pages (fuel + 1) offset favs
      = EO.favorites_loop pages fuel (offset + NUM_FAVORITES_PER_REQUEST)
          (favs ++ pages offset) := by
  have hnover' : ¬ MAX_FAVORITES_FOR_DISPLAY < favs.length + (pages offset).length := by
    simpa [List.length_append] using hnover
  simp [EO.favorites_loop, hemp, hlong, hnover']

/-- Helper for C9: the fuel parameter of favorites_loop is immaterial once
large enough — each continuing iteration adds a full page to an accumulator
that stays at most MAX_FAVORITES_FOR_DISPLAY, so FAVORITES_FUEL iterations are
never exhausted. -/
theorem favorites_fuel_stable (pages : ℕ → List ℕ) :
    ∀ (fuel offset : ℕ) (favs : List ℕ),
      favs.length ≤ MAX_FAVORITES_FOR_DISPLAY →
      MAX_FAVORITES_FOR_DISPLAY < favs.length + NUM_FAVORITES_PER_REQUEST * fuel →
      EO.favorites_loop pages fuel offset favs
        = EO.favorites_loop pages (fuel + 1) offset favs := by
  intro fuel
  induction fuel with
  | zero =>
    intro offset favs h1 h2
    exfalso
    simp only [MAX_FAVORITES_FOR_DISPLAY, NUM_FAVORITES_PER_REQUEST] at h1 h2
    omega
  | succ n ih =>
    intro offset favs h1 h2
    by_cases hemp : (pages offset).isEmpty = true
    · rw [favorites_loop_succ_empty pages n offset favs hemp,
        favorites_loop_succ_empty pages (n + 1) offset favs hemp]
    · have hemp' : (pages offset).isEmpty = false := by
        cases hb : (pages offset).isEmpty
        · rfl
        · exact absurd hb hemp
      by_cases hshort : (pages offset).length < NUM_FAVORITES_PER_REQUEST
      · rw [favorites_loop_succ_short pages n offset favs hemp' hshort,
          favorites_loop_succ_short pages (n + 1) offset favs hemp' hshort]
      · by_cases hover : MAX_FAVORITES_FOR_DISPLAY < (favs ++ pages offset).length
        · rw [favorites_loop_succ_trunc pages n offset favs hemp' hshort hover,
            favorites_loop_succ_trunc pages (n + 1) offset favs hemp' hshort hover]
        · rw [favorites_loop_succ_cont pages n offset favs hemp' hshort hover,
            favorites_loop_succ_cont pages (n + 1) offset favs hemp' hshort hover]
          apply ih
          · exact not_lt.mp hover
          · have hp : NUM_FAVORITES_PER_REQUEST ≤ (pages offset).length :=
              not_lt.mp hshort
            rw [List.length_append]
            simp only [MAX_FAVORITES_FOR_DISPLAY, NUM_FAVORITES_PER_REQUEST] at h2 hp ⊢
            omega

/-- Helper for C9: when every page respects the requested limit of
NUM_FAVORITES_PER_REQUEST items, the accumulated list never exceeds 209 items
(six full pages of 30 plus a final short page of at most 29). -/
theorem favorites_loop_length_le (pages : ℕ → List ℕ)
    (hpages : ∀ off, (pages off).length ≤ NUM_FAVORITES_PER_REQUEST) :
    ∀ (fuel offset : ℕ) (favs : List ℕ) (k : ℕ),
      favs.length = NUM_FAVORITES_PER_REQUEST * k →
      favs.length ≤ MAX_FAVORITES_FOR_DISPLAY →
      (EO.favorites_loop pages fuel offset favs).length ≤ 209 := by
  intro fuel
  induction fuel with
  | zero =>
    intro offset favs k hk hle
    simp only [EO.favorites_loop]
    simp only [MAX_FAVORITES_FOR_DISPLAY] at hle
    omega
  | succ n ih =>
    intro offset favs k hk hle
    by_cases hemp : (pages offset).isEmpty = true
    · rw [favorites_loop_succ_empty pages n offset favs hemp]
      simp only [MAX_FAVORITES_FOR_DISPLAY] at hle
      omega
    · have hemp' : (pages offset).isEmpty = false := by
        cases hb : (pages offset).isEmpty
        · rfl
        · exact absurd hb hemp
      by_cases hshort : (pages offset).length < NUM_FAVORITES_PER_REQUEST
      · rw [favorites_loop_succ_short pages n offset favs hemp' hshort]
        rw [List.length_append]
        simp only [MAX_FAVORITES_FOR_DISPLAY, NUM_FAVORITES_PER_REQUEST] at hk hle hshort
        omega
      · by_cases hover : MAX_FAVORITES_FOR_DISPLAY < (favs ++ pages offset).length
        · rw [favorites_loop_succ_trunc pages n offset favs hemp' hshort hover]
          rw [List.length_take]
          simp only [MAX_FAVORITES_FOR_DISPLAY]
          omega
        · rw [favorites_loop_succ_cont pages n offset favs hemp' hshort hover]
          have hfull : (pages offset).length = NUM_FAVORITES_PER_REQUEST :=
            le_antisymm (hpages offset) (not_lt.mp hshort)
          apply ih (offset + NUM_FAVORITES_PER_REQUEST) (favs ++ pages offset) (k + 1)
          · rw [List.length_append, hk, hfull]
            ring
          · exact not_lt.mp hover

set_option maxRecDepth 8000 in
/-- C9 counterexample: with six full pages of 30 followed by a page of 29,
favorites returns 209 items — strictly more than MAX_FAVORITES_FOR_DISPLAY —
because the short-page break happens before the maximum-count check. -/
theorem favorites_exceeds_max_cex :
    (EO.favorites EO.short_last_pages).length = 209
    ∧ MAX_FAVORITES_FOR_DISPLAY < (EO.favorites EO.short_last_pages).length := by
  have h : (EO.favorites EO.short_last_pages).length = 209 := by rfl
  refine ⟨h, ?_⟩
  rw [h]
  norm_num [MAX_FAVORITES_FOR_DISPLAY]

/-- C9 amended: favorites pages through the favorited endpoint with
limit/offset parameters, stopping on a page shorter than
NUM_FAVORITES_PER_REQUEST (returned in full, including the case of an empty or
failed page) or when the accumulated count exceeds the configured maximum; for
every sequence of page responses respecting the requested limit, the returned
list contains at most 209 items — the largest multiple of
NUM_FAVORITES_PER_REQUEST not exceeding MAX_FAVORITES_FOR_DISPLAY, plus
NUM_FAVORITES_PER_REQUEST - 1 — rather than at most MAX_FAVORITES_FOR_DISPLAY
items as claimed. -/
theorem favorites_bounded_spec (pages : ℕ → List ℕ)
    (hpages : ∀ off, (pages off).length ≤ NUM_FAVORITES_PER_REQUEST) :
    (EO.favorites pages).length ≤ 209
    ∧ ((pages 0).length < NUM_FAVORITES_PER_REQUEST →
        EO.favorites pages = pages 0) := by
  constructor
  · exact favorites_loop_length_le pages hpages EO.FAVORITES_FUEL 0 [] 0
      (by simp) (by simp)
  · intro hshort
    unfold EO.favorites
    have hfuel : EO.FAVORITES_FUEL = 6 + 1 := rfl
    rw [hfuel]
    by_cases hemp : (pages 0).isEmpty = true
    · rw [favorites_loop_succ_empty pages 6 0 [] hemp]
      exact (List.isEmpty_iff.mp hemp).symm
    · have hemp' : (pages 0).isEmpty = false := by
        cases hb : (pages 0).isEmpty
        · rfl
        · exact absurd hb hemp
      rw [favorites_loop_succ_short pages 6 0 [] hemp' hshort]
      simp

/-- Witness for favorites_bounded_spec: pages of two items each; the first
page is short, so it is returned as the whole result. -/
theorem favorites_bounded_spec_witness :
    (EO.favorites EO.two_item_pages).length ≤ 209
    ∧ EO.favorites EO.two_item_pages = EO.two_item_pages 0 :=
  ⟨(favorites_bounded_spec EO.two_item_pages
      (fun _ => by simp [EO.two_item_pages, NUM_FAVORITES_PER_REQUEST])).1,
   (favorites_bounded_spec EO.two_item_pages
      (fun _ => by simp [EO.two_item_pages, NUM_FAVORITES_PER_REQUEST])).2 (by decide)⟩
